import Mathlib

/-! Formal model of the peer-multiple stock valuation engine of
`starter-backend/gemini_utils.py` (classes `ValuePriceCalculationService` and
`StockValuationService`). Numeric values are modelled as exact rationals;
binary floating-point representation artifacts are out of scope. Optional
fields are `Option ℚ`, `none` standing for Python `None`. -/

namespace Invester

attribute [local semireducible] Rat.add Rat.mul Rat.inv Rat.sub Rat.ofScientific

/-- Record of one ticker's financial fields (dataclass `EssentialMetrics`,
gemini_utils.py lines 26-45); every field is independently optional. -/
structure EssentialMetrics where
  ticker : String
  market_cap : Option ℚ := none
  pe_ratio : Option ℚ := none
  pb_ratio : Option ℚ := none
  ps_ratio : Option ℚ := none
  current_price : Option ℚ := none
  book_value_per_share : Option ℚ := none
  revenue_per_share : Option ℚ := none
  earnings_per_share : Option ℚ := none
  roe : Option ℚ := none
  debt_to_equity : Option ℚ := none
  profit_margin : Option ℚ := none
  revenue_growth : Option ℚ := none
deriving DecidableEq

/-- One entry of the peer-statistics map (the dict built at lines 308-316 /
318-326 / 342-350 / 352-360). The field `std` holds the sample variance; the
source stores its square root (`Series.std`, ddof 1). The map x ↦ √x is
injective and strictly monotone on nonnegative reals, so equality of entries
and the positivity test `std > 0` carry over unchanged; no claim depends on
the magnitude of a standard deviation produced by the aggregator. -/
structure StatEntry where
  median : ℚ
  mean : ℚ
  q25 : ℚ
  q75 : ℚ
  std : ℚ
  count : ℕ
  outliers_removed : ℕ
deriving DecidableEq

/-- Peer-statistics map: the Python dict keyed by the five tracked metric
names, one optional entry per name (`valuation_methods` = pe, pb, ps and
`quality_metrics` = roe, debt_to_equity, lines 259-260). -/
structure PeerStats where
  pe_ratio : Option StatEntry := none
  pb_ratio : Option StatEntry := none
  ps_ratio : Option StatEntry := none
  roe : Option StatEntry := none
  debt_to_equity : Option StatEntry := none
deriving DecidableEq

/-- Sorted (ascending) copy of a series, as pandas sorts data for quantile
computation. -/
def sortQ (l : List ℚ) : List ℚ :=
  l.insertionSort (fun a b => a ≤ b)

/-- Floor of a nonnegative rational as a natural number (for a nonnegative
argument `x.num / x.den` is exactly the floor). -/
def ratFloorNat (x : ℚ) : ℕ :=
  (x.num / (x.den : ℤ)).toNat

/-- Linear-interpolation quantile of a series, following pandas
`Series.quantile`: sort the values, take position q·(n−1), and interpolate
linearly between the two neighbouring order statistics. -/
def quantile (l : List ℚ) (q : ℚ) : ℚ :=
  let s := sortQ l
  let n := s.length
  let h : ℚ := q * ((n : ℚ) - 1)
  let j : ℕ := ratFloorNat h
  let g : ℚ := h - (j : ℚ)
  let lo := s.getD j 0
  let hi := s.getD (j + 1) lo
  lo + g * (hi - lo)

/-- pandas `Series.median`: the 0.5 quantile under linear interpolation. -/
def medianQ (l : List ℚ) : ℚ :=
  quantile l (1/2)

/-- pandas `Series.mean`. -/
def meanQ (l : List ℚ) : ℚ :=
  l.sum / (l.length : ℚ)

/-- Sample variance of a series (`Series.std` squared, ddof 1); see the note
on `StatEntry.std`. -/
def sampleVar (l : List ℚ) : ℚ :=
  (l.map (fun x => (x - meanQ l) ^ 2)).sum / ((l.length : ℚ) - 1)

/-- Method `_remove_outliers` (lines 262-279) with its default IQR strategy,
the only one the aggregator invokes: series of fewer than 3 points pass
through, otherwise values outside [Q1 − 2·IQR, Q3 + 2·IQR] are dropped. -/
def remove_outliers (series : List ℚ) : List ℚ :=
  if series.length < 3 then series
  else
    let Q1 := quantile series (1/4)
    let Q3 := quantile series (3/4)
    let IQR := Q3 - Q1
    let lower_bound := Q1 - 2 * IQR
    let upper_bound := Q3 + 2 * IQR
    series.filter (fun x => decide (lower_bound ≤ x) && decide (x ≤ upper_bound))

/-- Statistics fields emitted for a surviving series: the dict literal shared
by all four emission sites (`median`, `mean`, quartiles, `std` guarded by
`std > 0`, `count`, `outliers_removed`). -/
def mkStatEntry (values : List ℚ) (outliers_removed : ℕ) : StatEntry :=
  { median := medianQ values
    mean := meanQ values
    q25 := quantile values (1/4)
    q75 := quantile values (3/4)
    std := if 0 < sampleVar values then sampleVar values else 0
    count := values.length
    outliers_removed := outliers_removed }

/-- Statistics block for one valuation multiple (the body of the loop at
lines 290-326): with more than 2 points, IQR outlier removal, then the
metric-specific absolute cap, each stage guarded by a ≥ 2 count; with
exactly 2 points, raw statistics and `outliers_removed` = 0. -/
def stats_for_multiple (series : List ℚ) (cap : ℚ → Bool) : Option StatEntry :=
  if 2 < series.length then
    let clean1 := remove_outliers series
    if 2 ≤ clean1.length then
      let clean_series := clean1.filter cap
      if 2 ≤ clean_series.length then
        some (mkStatEntry clean_series (series.length - clean_series.length))
      else none
    else none
  else if 2 ≤ series.length then
    some (mkStatEntry series 0)
  else none

/-- Statistics block for one quality metric (the body of the loop at lines
329-360): same shape, but the domain bound is applied directly after the IQR
filter with a single ≥ 2 check before emission. -/
def stats_for_quality (series : List ℚ) (bound : ℚ → Bool) : Option StatEntry :=
  if 2 < series.length then
    let clean_series := (remove_outliers series).filter bound
    if 2 ≤ clean_series.length then
      some (mkStatEntry clean_series (series.length - clean_series.length))
    else none
  else if 2 ≤ series.length then
    some (mkStatEntry series 0)
  else none

/-- Column extraction plus `dropna` (line 292/331): the non-absent values of
one field across the peer records, in order. -/
def dropna (peers : List EssentialMetrics) (f : EssentialMetrics → Option ℚ) : List ℚ :=
  (peers.map f).filterMap id

/-- Method `calculate_peer_statistics` (lines 281-362). The absolute caps
are P/E ≤ 100, P/B ≤ 20, P/S ≤ 30, ROE ∈ [−0.5, 1.0], D/E ≤ 10; an empty
peer list yields the empty map. -/
def calculate_peer_statistics (peer_metrics : List EssentialMetrics) : PeerStats :=
  if peer_metrics.isEmpty then {}
  else
    { pe_ratio := stats_for_multiple (dropna peer_metrics (·.pe_ratio))
        (fun x => decide (x ≤ 100))
      pb_ratio := stats_for_multiple (dropna peer_metrics (·.pb_ratio))
        (fun x => decide (x ≤ 20))
      ps_ratio := stats_for_multiple (dropna peer_metrics (·.ps_ratio))
        (fun x => decide (x ≤ 30))
      roe := stats_for_quality (dropna peer_metrics (·.roe))
        (fun x => decide (-(1/2) ≤ x) && decide (x ≤ 1))
      debt_to_equity := stats_for_quality (dropna peer_metrics (·.debt_to_equity))
        (fun x => decide (x ≤ 10)) }

/-- ROE leg of `calculate_quality_adjustment` (lines 368-380): `some` the
appended adjustment when every gate passes (target ROE present and strictly
between −0.5 and 1.0, a peer ROE entry with count ≥ 2, positive std),
`none` when the term is not appended. The adjustment is
clamp(z·0.05, −0.15, 0.15) for z = (target ROE − peer median)/peer std. -/
def roe_adjustment_term (target : EssentialMetrics) (peer_stats : PeerStats) : Option ℚ :=
  match target.roe, peer_stats.roe with
  | some r, some e =>
    if (-(1/2) < r ∧ r < 1) ∧ 2 ≤ e.count then
      if 0 < e.std then
        some (max (-(3/20)) (min (3/20) ((r - e.median) / e.std * (1/20))))
      else none
    else none
  | _, _ => none

/-- Debt-to-equity leg of `calculate_quality_adjustment` (lines 383-394):
gates are target D/E present with 0 ≤ D/E ≤ 10, a peer entry with count ≥ 2
and positive std; the adjustment is clamp(z·0.04, −0.10, 0.10) for the
inverted z = (peer median − target D/E)/peer std. -/
def de_adjustment_term (target : EssentialMetrics) (peer_stats : PeerStats) : Option ℚ :=
  match target.debt_to_equity, peer_stats.debt_to_equity with
  | some d, some e =>
    if (0 ≤ d ∧ d ≤ 10) ∧ 2 ≤ e.count then
      if 0 < e.std then
        some (max (-(1/10)) (min (1/10) ((e.median - d) / e.std * (1/25))))
      else none
    else none
  | _, _ => none

/-- Method `calculate_quality_adjustment` (lines 364-403): average the
applicable terms, clamp the average to ±0.20, and return 1 plus it; 1.0
when no term applies. -/
def calculate_quality_adjustment (target : EssentialMetrics) (peer_stats : PeerStats) : ℚ :=
  let adjustments :=
    (roe_adjustment_term target peer_stats).toList ++
      (de_adjustment_term target peer_stats).toList
  if adjustments.isEmpty then 1
  else
    let total_adjustment := adjustments.sum / (adjustments.length : ℚ)
    1 + max (-(1/5)) (min (1/5) total_adjustment)

/-- Method `_apply_sanity_checks` (lines 404-425), without its logging-only
`method` argument. With a truthy positive current price the two relative caps
return early; otherwise the value falls through to the absolute clamps
[0.01, 10000]. `relative` holds the early-returned value if one fired. -/
def apply_sanity_checks (value_price : ℚ) (current_price : Option ℚ) : ℚ :=
  let relative : Option ℚ :=
    match current_price with
    | some cp =>
      if cp ≠ 0 ∧ 0 < cp then
        if cp * 4 < value_price then some (cp * 4)
        else if value_price < cp * (1/4) then some (cp * (1/4))
        else none
      else none
    | none => none
  match relative with
  | some capped => capped
  | none =>
    if value_price < 1/100 then 1/100
    else if 10000 < value_price then 10000
    else value_price

/-- Banker's rounding of Python `round` on exact rationals: nearest
integer, ties to the even one. `f` is the floor (floor division of
numerator by denominator) and `r` the numerator of the fractional part,
so the fraction compares to 1/2 as `2·r` compares to the denominator. -/
def roundHalfEven (x : ℚ) : ℤ :=
  let f : ℤ := Int.fdiv x.num (x.den : ℤ)
  let r : ℤ := x.num - f * (x.den : ℤ)
  if 2 * r < (x.den : ℤ) then f
  else if (x.den : ℤ) < 2 * r then f + 1
  else if f % 2 = 0 then f else f + 1

/-- Python `round(x, 2)` on exact rationals. -/
def round2 (x : ℚ) : ℚ :=
  Rat.divInt (roundHalfEven (x * 100)) 100

/-- Python `round(x, 3)` on exact rationals. -/
def round3 (x : ℚ) : ℚ :=
  Rat.divInt (roundHalfEven (x * 1000)) 1000

/-- One emitted valuation component (the dict literal at lines 448-456 /
472-480 / 496-504). -/
structure ValuationComponent where
  base_value_price : ℚ
  quality_adjustment : ℚ
  value_price : ℚ
  peer_median_multiple : ℚ
  target_metric_value : ℚ
  confidence : ℚ
  sanity_check_applied : Bool
deriving DecidableEq

/-- Components map: the Python dict keyed by the three method names, built
in the fixed order pe, pb, ps. -/
structure ValuationComponents where
  pe_valuation : Option ValuationComponent := none
  pb_valuation : Option ValuationComponent := none
  ps_valuation : Option ValuationComponent := none
deriving DecidableEq

/-- Entries of the components dict in its insertion order (pe, pb, ps). -/
def ValuationComponents.toList (c : ValuationComponents) :
    List (String × ValuationComponent) :=
  (c.pe_valuation.map (fun v => ("pe_valuation", v))).toList ++
    (c.pb_valuation.map (fun v => ("pb_valuation", v))).toList ++
    (c.ps_valuation.map (fun v => ("ps_valuation", v))).toList

/-- Shared shape of the three per-method valuations in
`calculate_value_price_components` (lines 434-504): the method fires when
the target per-share figure is truthy positive, the corresponding peer
entry exists with count ≥ 2, and the peer median lies in the method's
plausibility band [`med_lo`, `med_hi`]. -/
def method_component (per_share : Option ℚ) (entry : Option StatEntry)
    (med_lo med_hi : ℚ) (quality_adjustment : ℚ) (current_price : Option ℚ) :
    Option ValuationComponent :=
  match per_share, entry with
  | some v, some e =>
    if (v ≠ 0 ∧ 0 < v) ∧ 2 ≤ e.count then
      if med_lo ≤ e.median ∧ e.median ≤ med_hi then
        let base_value_price := v * e.median
        let adjusted_value_price := base_value_price * quality_adjustment
        let final_value := apply_sanity_checks adjusted_value_price current_price
        some
          { base_value_price := round2 base_value_price
            quality_adjustment := round3 quality_adjustment
            value_price := round2 final_value
            peer_median_multiple := round2 e.median
            target_metric_value := round2 v
            confidence := min 100 ((e.count : ℚ) * 20)
            sanity_check_applied := decide (final_value ≠ adjusted_value_price) }
      else none
    else none
  | _, _ => none

/-- Method `calculate_value_price_components` (lines 427-506): plausibility
bands are P/E ∈ [5, 100], P/B ∈ [0.1, 20], P/S ∈ [0.1, 30]; the quality
multiplier is computed once and shared. -/
def calculate_value_price_components (target : EssentialMetrics)
    (peer_stats : PeerStats) : ValuationComponents :=
  let quality_adjustment := calculate_quality_adjustment target peer_stats
  { pe_valuation := method_component target.earnings_per_share peer_stats.pe_ratio
      5 100 quality_adjustment target.current_price
    pb_valuation := method_component target.book_value_per_share peer_stats.pb_ratio
      (1/10) 20 quality_adjustment target.current_price
    ps_valuation := method_component target.revenue_per_share peer_stats.ps_ratio
      (1/10) 30 quality_adjustment target.current_price }

/-- Method `calculate_composite_value_price` (lines 508-535): empty map →
(None, INSUFFICIENT_DATA); single entry → its price and its name uppercased;
otherwise the confidence-weighted average rounded to 2 decimals (with an
unweighted-mean fallback for zero total weight), labelled COMPOSITE. -/
def calculate_composite_value_price (components : ValuationComponents) :
    Option ℚ × String :=
  match components.toList with
  | [] => (none, "INSUFFICIENT_DATA")
  | [(method_name, comp)] => (some comp.value_price, method_name.toUpper)
  | entries =>
    let total_weight := (entries.map (fun mc => mc.2.confidence / 100)).sum
    let weighted_sum :=
      (entries.map (fun mc => mc.2.value_price * (mc.2.confidence / 100))).sum
    if 0 < total_weight then
      (some (round2 (weighted_sum / total_weight)), "COMPOSITE")
    else
      let prices := entries.map (fun mc => mc.2.value_price)
      (some (round2 (prices.sum / (prices.length : ℚ))), "COMPOSITE")

/-- Python `str.title()` on one word: first character uppercased, the rest
lowercased. -/
def titleWord (w : String) : String :=
  match w.data with
  | [] => ""
  | c :: cs => String.mk (c.toUpper :: cs.map Char.toLower)

/-- Python `method.replace('_', ' ').title()` as applied to method names
(space-separated words). -/
def methodTitle (s : String) : String :=
  String.intercalate " " (((s.replace "_" " ").splitOn " ").map titleWord)

/-- Python `format(x, '.1f')` on exact rationals: one decimal digit, ties to
even (float representation artifacts and the negative-zero rendering of tiny
negative floats are out of scope; no claim touches this formatting). -/
def fmt1 (x : ℚ) : String :=
  let n : ℤ := roundHalfEven (x * 10)
  let sign : String := if n < 0 then "-" else ""
  let m : ℕ := n.natAbs
  sign ++ toString (m / 10) ++ "." ++ toString (m % 10)

/-- Rendering of an integer-valued confidence as Python prints the int
`min(100, count * 20)`. -/
def fmtConf (x : ℚ) : String :=
  toString x.num

/-- Method `generate_insights` (lines 537-609). Rule order and gating follow
the source; with no components the single insufficient-data insight is
returned immediately. -/
def generate_insights (target : EssentialMetrics) (components : ValuationComponents)
    (current_price : Option ℚ) (value_price : Option ℚ) (peer_stats : PeerStats) :
    List String :=
  if components.toList.isEmpty then ["Insufficient data for peer-based valuation"]
  else
    let entries := components.toList
    let methods := entries.map (·.1)
    let i1 := ["Valuation based on " ++ toString methods.length ++ " method(s): " ++
      String.intercalate ", " (methods.map methodTitle)]
    let i2 :=
      match entries.head? with
      | some mc =>
        let sample_adjustment := mc.2.quality_adjustment
        if 21/20 < sample_adjustment then
          ["Quality premium applied: " ++ fmt1 ((sample_adjustment - 1) * 100) ++
            "% (superior ROE/D/E vs peers)"]
        else if sample_adjustment < 19/20 then
          ["Quality discount applied: " ++ fmt1 ((1 - sample_adjustment) * 100) ++
            "% (inferior ROE/D/E vs peers)"]
        else ["Quality metrics in line with peer average"]
      | none => []
    let i3 :=
      if entries.any (fun mc => mc.2.sanity_check_applied) then
        ["⚠️ Extreme valuations detected and capped for reasonableness"]
      else []
    let outlier_bit := fun (name : String) (e : Option StatEntry) =>
      match e with
      | some st =>
        if 0 < st.outliers_removed then
          [toString st.outliers_removed ++ " " ++ name.toUpper ++ " outliers"]
        else []
      | none => []
    let outliers_info := outlier_bit "pe_ratio" peer_stats.pe_ratio ++
      outlier_bit "pb_ratio" peer_stats.pb_ratio ++
      outlier_bit "ps_ratio" peer_stats.ps_ratio
    let i4 :=
      if outliers_info.isEmpty then []
      else ["Peer data cleaned: " ++ String.intercalate ", " outliers_info ++ " removed"]
    let i5 :=
      match target.roe, peer_stats.roe with
      | some r, some st =>
        if st.median * (6/5) < r then
          ["Strong ROE: " ++ fmt1 r ++ "% vs peer median " ++ fmt1 st.median ++ "%"]
        else if r < st.median * (4/5) then
          ["Below-average ROE: " ++ fmt1 r ++ "% vs peer median " ++ fmt1 st.median ++ "%"]
        else []
      | _, _ => []
    let i6 :=
      match target.debt_to_equity, peer_stats.debt_to_equity with
      | some d, some st =>
        if d < st.median * (7/10) then
          ["Conservative debt level: " ++ fmt1 d ++ " vs peer median " ++ fmt1 st.median]
        else if st.median * (3/2) < d then
          ["High debt level: " ++ fmt1 d ++ " vs peer median " ++ fmt1 st.median]
        else []
      | _, _ => []
    let i7 :=
      match current_price, value_price with
      | some cp, some vp =>
        if cp ≠ 0 ∧ vp ≠ 0 then
          let difference_pct := (vp - cp) / cp * 100
          if 10 < difference_pct then
            ["Stock appears undervalued by " ++ fmt1 |difference_pct| ++ "%"]
          else if difference_pct < -10 then
            ["Stock appears overvalued by " ++ fmt1 |difference_pct| ++ "%"]
          else ["Stock appears fairly valued relative to peers"]
        else []
      | _, _ => []
    let i8 := (entries.map (fun mc =>
      if 80 ≤ mc.2.confidence then
        [methodTitle mc.1 ++ " valuation has high confidence (" ++
          fmtConf mc.2.confidence ++ "%)"]
      else if mc.2.confidence < 60 then
        [methodTitle mc.1 ++ " valuation has lower confidence due to limited peer data"]
      else [])).flatten
    i1 ++ i2 ++ i3 ++ i4 ++ i5 ++ i6 ++ i7 ++ i8

/-- Result record (dataclass `ValuationResult`, lines 47-65); the target's
metrics are kept as the record itself rather than its dict image. -/
structure ValuationResult where
  ticker : String
  analysis_date : String
  current_price : Option ℚ
  calculated_value_price : Option ℚ
  price_difference : Option ℚ
  price_difference_percent : Option ℚ
  valuation_method : String
  target_metrics : EssentialMetrics
  peer_tickers : List String
  peer_count : ℕ
  peer_statistics : PeerStats
  valuation_components : ValuationComponents
  key_insights : List String
deriving DecidableEq

/-- Final composite guard of `get_stock_valuation` (lines 656-658):
`min((current+current)*0.3, price)` then `max((current-current)*0.3, price)`.
`none` models the `TypeError` Python raises on the line as soon as either
operand is `None` (`None + None` and `min` of a float and `None` both
raise). -/
def final_guard (current_price calculated_value_price : Option ℚ) : Option ℚ :=
  match current_price, calculated_value_price with
  | some cp, some vp => some (max ((cp - cp) * (3/10)) (min ((cp + cp) * (3/10)) vp))
  | _, _ => none

/-- Computational core of `StockValuationService.get_stock_valuation`
(lines 644-687), from the point where the fetched records are split into the
target record and the peer list; ticker validation, peer lookup, data
fetching and the clock are external I/O collaborators, and `analysis_date`
stands for `datetime.now().isoformat()`. `none` models an uncaught exception
escaping the method. -/
def get_stock_valuation_core (ticker : String) (analysis_date : String)
    (target_metrics : EssentialMetrics) (fetched_peers : List EssentialMetrics) :
    Option ValuationResult :=
  let peer_metrics := fetched_peers.filter (fun m => m.market_cap.isSome)
  let successful_peers := peer_metrics.map (·.ticker)
  let peer_stats := calculate_peer_statistics peer_metrics
  let valuation_components := calculate_value_price_components target_metrics peer_stats
  let composite := calculate_composite_value_price valuation_components
  let current_price := target_metrics.current_price
  match final_guard current_price composite.1 with
  | none => none
  | some guarded =>
    let calculated_value_price : Option ℚ := some guarded
    let diffs : Option ℚ × Option ℚ :=
      match current_price, calculated_value_price with
      | some cp, some vp =>
        if cp ≠ 0 ∧ vp ≠ 0 then
          let price_difference := round2 (vp - cp)
          (some price_difference, some (round2 (price_difference / cp * 100)))
        else (none, none)
      | _, _ => (none, none)
    some
      { ticker := ticker.toUpper
        analysis_date := analysis_date
        current_price := current_price
        calculated_value_price := calculated_value_price
        price_difference := diffs.1
        price_difference_percent := diffs.2
        valuation_method := composite.2
        target_metrics := target_metrics
        peer_tickers := successful_peers
        peer_count := peer_metrics.length
        peer_statistics := peer_stats
        valuation_components := valuation_components
        key_insights := generate_insights target_metrics valuation_components
          current_price calculated_value_price peer_stats }

/-- Concrete target of Scenario B (and A): EPS 2, current price 100, book
and revenue per share absent, no quality data. -/
def scenarioB_target : EssentialMetrics :=
  { ticker := "TGT", earnings_per_share := some 2, current_price := some 100 }

/-- Concrete peers of Scenario B: P/E values 10, 12, 11, nothing else. -/
def scenarioB_peers : List EssentialMetrics :=
  [{ ticker := "P1", pe_ratio := some 10 },
   { ticker := "P2", pe_ratio := some 12 },
   { ticker := "P3", pe_ratio := some 11 }]

/-- Single peer record of Scenario A, with a resolvable market cap and a
P/E value. -/
def scenarioA_peer : EssentialMetrics :=
  { ticker := "P1", market_cap := some 1000, pe_ratio := some 10 }

/-- Second peer record for the amended Scenario A (two records are the
minimum the aggregator emits statistics for). -/
def scenarioA_peer2 : EssentialMetrics :=
  { ticker := "P2", market_cap := some 1000, pe_ratio := some 12 }

/-- Target with a resolvable market cap and a current price but no peers in
scope: exercises the insufficient-data path of the full valuation. -/
def no_peer_target : EssentialMetrics :=
  { ticker := "TGT", market_cap := some 1000000, current_price := some 100 }

/-- Target whose current price is absent. -/
def no_price_target : EssentialMetrics :=
  { ticker := "X", market_cap := some 1000000 }

/-- Target sitting exactly on the upper ROE boundary 1.0. -/
def boundary_target : EssentialMetrics :=
  { ticker := "T", roe := some 1 }

/-- Peer statistics with a well-formed ROE entry (count 2, std 1, median 0). -/
def boundary_stats : PeerStats :=
  { roe := some { median := 0, mean := 0, q25 := 0, q75 := 0, std := 1, count := 2, outliers_removed := 0 } }

/-- Target for the sanity-band counterexample: EPS 400, current price 5000. -/
def big_target : EssentialMetrics :=
  { ticker := "T3", earnings_per_share := some 400, current_price := some 5000 }

/-- Peer statistics carrying a P/E entry with median 95 and count 2. -/
def big_stats : PeerStats :=
  { pe_ratio := some { median := 95, mean := 95, q25 := 95, q75 := 95, std := 0, count := 2, outliers_removed := 0 } }

/-- Target with a mid-range ROE of 0.1, used to witness the quality-scorer
theorems. -/
def mild_target : EssentialMetrics :=
  { ticker := "T", roe := some (1/10) }

/-- Values of a series that survive the aggregator's filtering stages
exactly as it applies them: no filtering for a 2-point series, the IQR
filter followed by the domain cap (`keep`) for 3 or more points. -/
def surviving (series : List ℚ) (keep : ℚ → Bool) : List ℚ :=
  if 2 < series.length then (remove_outliers series).filter keep else series

/-- The P/E statistics entry the aggregator emits for the Scenario B peers
(computed value, used to instantiate witnesses). -/
def scenarioB_pe_entry : StatEntry :=
  { median := 11, mean := 11, q25 := 21/2, q75 := 23/2, std := 1, count := 3, outliers_removed := 0 }

/-- The P/E valuation component emitted for Scenario B (computed value,
used to instantiate witnesses). -/
def scenarioB_pe_component : ValuationComponent :=
  { base_value_price := 22, quality_adjustment := 1, value_price := 25,
    peer_median_multiple := 11, target_metric_value := 2, confidence := 60,
    sanity_check_applied := true }

/-- Lemma: a value clamped into [−c, c] lies in [−c, c] when 0 ≤ c. -/
theorem clamp_mem {c x : ℚ} (hc : 0 ≤ c) :
    -c ≤ max (-c) (min c x) ∧ max (-c) (min c x) ≤ c :=
  ⟨le_max_left _ _, max_le (by linarith) (min_le_left _ _)⟩

/-- Lemma: an applicable ROE term lies within its own clamp [−0.15, 0.15]. -/
theorem roe_adjustment_term_bounds {t : EssentialMetrics} {s : PeerStats} {a : ℚ}
    (h : roe_adjustment_term t s = some a) : -(3/20) ≤ a ∧ a ≤ 3/20 := by
  unfold roe_adjustment_term at h
  split at h
  · split_ifs at h
    obtain rfl := Option.some.inj h
    exact clamp_mem (by norm_num)
  · exact Option.noConfusion h

/-- Lemma: an applicable D/E term lies within its own clamp [−0.10, 0.10]. -/
theorem de_adjustment_term_bounds {t : EssentialMetrics} {s : PeerStats} {b : ℚ}
    (h : de_adjustment_term t s = some b) : -(1/10) ≤ b ∧ b ≤ 1/10 := by
  unfold de_adjustment_term at h
  split at h
  · split_ifs at h
    obtain rfl := Option.some.inj h
    exact clamp_mem (by norm_num)
  · exact Option.noConfusion h

/-- Lemma: the final guard raises (models `TypeError`) whenever the current
price is absent, whatever the composite operand is. -/
theorem final_guard_none_left (v : Option ℚ) : final_guard none v = none := by
  cases v <;> rfl

/-- Lemma: the full valuation core raises whenever the target's current
price is absent: the final guard's arithmetic on `None` has no absence
check. -/
theorem core_none_of_no_current (ticker analysis_date : String)
    (target : EssentialMetrics) (peers : List EssentialMetrics)
    (h : target.current_price = none) :
    get_stock_valuation_core ticker analysis_date target peers = none := by
  simp only [get_stock_valuation_core, h, final_guard_none_left]

/-- C1 counterexample: with current price 100 and composite 100 the final
guard returns 60 = 0.6·current, not min(2·current, max(0, composite)) =
100 as the claim states. -/
theorem C1_guard_band_refuted :
    final_guard (some 100) (some 100) = some 60 ∧
    (60 : ℚ) ≠ min (2 * 100) (max 0 100) := by
  decide

/-- C1 (amended): the final guard, applied once to the composite price
independently of the method count, clamps it into the band
[0, 0.6·current]: the guarded price equals max(0, min(0.6·current,
composite)) — the code's lower bound (current−current)·0.3 is 0 and its
upper bound (current+current)·0.3 is 0.6·current — and it lies within
[0, 0.6·current] whenever the current price is nonnegative. -/
theorem C1_final_guard_band (c v : ℚ) :
    final_guard (some c) (some v) = some (max 0 (min ((3/5) * c) v)) ∧
    (0 ≤ c → 0 ≤ max 0 (min ((3/5) * c) v) ∧
      max 0 (min ((3/5) * c) v) ≤ (3/5) * c) := by
  have h1 : (c - c) * (3/10 : ℚ) = 0 := by ring
  have h2 : (c + c) * (3/10 : ℚ) = (3/5) * c := by ring
  constructor
  · show some (max ((c - c) * (3/10)) (min ((c + c) * (3/10)) v)) = _
    rw [h1, h2]
  · intro hc
    exact ⟨le_max_left _ _,
      max_le (mul_nonneg (by norm_num) hc) (min_le_left _ _)⟩

/-- Witness for C1 at current price 100 and composite 30 (inside the band:
the guard leaves it at 30). -/
theorem C1_final_guard_band_witness :
    final_guard (some 100) (some 30) = some (max 0 (min ((3/5) * 100) 30)) ∧
    (0 ≤ max 0 (min ((3/5) * (100 : ℚ)) 30) ∧
      max 0 (min ((3/5) * (100 : ℚ)) 30) ≤ (3/5) * 100) :=
  ⟨(C1_final_guard_band 100 30).1, (C1_final_guard_band 100 30).2 (by norm_num)⟩

/-- C2: with zero resolvable peers the statistics map is empty, no method
fires, the blender reports (None, INSUFFICIENT_DATA) and the insight list is
the single insufficient-data string — but the full valuation then raises
(`min` of a float and `None` in the final guard) instead of completing
normally with that reportable outcome. -/
theorem C2_insufficient_data_crashes :
    calculate_peer_statistics [] = {} ∧
    calculate_value_price_components no_peer_target {} = {} ∧
    calculate_composite_value_price {} = (none, "INSUFFICIENT_DATA") ∧
    generate_insights no_peer_target {} (some 100) none {} =
      ["Insufficient data for peer-based valuation"] ∧
    get_stock_valuation_core "TGT" "2026-01-01" no_peer_target [] = none := by
  decide

/-- C6: Scenario B. Peers with P/E 10, 12, 11 give a peer median of 11; with
no ROE or D/E data the quality multiplier is 1; the P/E base price is
2·11 = 22; the sanity clamp to [0.25·100, 4·100] = [25, 400] fires and the
final component price is 25 with the flag set. -/
theorem C6_scenario_B :
    (calculate_peer_statistics scenarioB_peers).pe_ratio.map (·.median) = some 11 ∧
    calculate_quality_adjustment scenarioB_target
      (calculate_peer_statistics scenarioB_peers) = 1 ∧
    (calculate_value_price_components scenarioB_target
      (calculate_peer_statistics scenarioB_peers)).pe_valuation.map
        (·.base_value_price) = some 22 ∧
    apply_sanity_checks 22 (some 100) = 25 ∧
    (100 : ℚ) * (1/4) = 25 ∧ (100 : ℚ) * 4 = 400 ∧
    (calculate_value_price_components scenarioB_target
      (calculate_peer_statistics scenarioB_peers)).pe_valuation.map
        (·.sanity_check_applied) = some true ∧
    (calculate_value_price_components scenarioB_target
      (calculate_peer_statistics scenarioB_peers)).pe_valuation.map
        (·.value_price) = some 25 := by
  decide

/-- C8 counterexample: with a single peer record no P/E statistics entry can
exist (the aggregator needs at least 2 values), so the P/E method cannot
fire: the components map is empty and the blender's label is
INSUFFICIENT_DATA — not one component labelled PE_VALUATION as the claim
states for a single peer record. -/
theorem C8_single_peer_no_component :
    (calculate_peer_statistics [scenarioA_peer]).pe_ratio = none ∧
    calculate_value_price_components scenarioB_target
      (calculate_peer_statistics [scenarioA_peer]) = {} ∧
    calculate_composite_value_price (calculate_value_price_components
      scenarioB_target (calculate_peer_statistics [scenarioA_peer])) =
      (none, "INSUFFICIENT_DATA") := by
  decide

/-- C8 (amended): with two peer records carrying P/E data (the minimum the
aggregator emits an entry for) and a target whose P/E method fires while the
P/B and P/S per-share inputs are absent, exactly one component is produced,
and the blender's label is that component's name uppercased (PE_VALUATION),
not COMPOSITE. -/
theorem C8_single_method_label :
    ((calculate_value_price_components scenarioB_target
      (calculate_peer_statistics [scenarioA_peer, scenarioA_peer2])).toList.map
        (·.1)) = ["pe_valuation"] ∧
    calculate_composite_value_price (calculate_value_price_components
      scenarioB_target (calculate_peer_statistics [scenarioA_peer, scenarioA_peer2])) =
      (some 25, "PE_VALUATION") ∧
    "PE_VALUATION" = "pe_valuation".toUpper ∧ "PE_VALUATION" ≠ "COMPOSITE" := by
  with_unfolding_all decide

/-- C9 counterexample: a target ROE of exactly 1.0 (inside the claim's
closed interval) with a well-formed peer entry (count 2, std 1, median 0)
does not make the ROE term apply: the code tests the open interval
−0.5 < ROE < 1.0, so the multiplier stays 1 instead of the claimed
1 + clamp((1−0)/1·0.05) = 1.05. -/
theorem C9_boundary_excluded :
    roe_adjustment_term boundary_target boundary_stats = none ∧
    calculate_quality_adjustment boundary_target boundary_stats = 1 ∧
    (boundary_target.roe = some 1 ∧ -(1/2 : ℚ) ≤ 1 ∧ (1 : ℚ) ≤ 1) ∧
    boundary_stats.roe.map (·.count) = some 2 ∧
    boundary_stats.roe.map (·.std) = some 1 ∧
    calculate_quality_adjustment boundary_target boundary_stats ≠
      1 + max (-(3/20)) (min (3/20) (((1 : ℚ) - 0) / 1 * (1/20))) := by
  decide

/-- C10: the full valuation returns normally only when the target's current
price is present — the final guard does arithmetic on the current price with
no absence check, so an absent current price always raises instead of
producing a result. -/
theorem C10_absent_current_price_raises (ticker analysis_date : String)
    (target : EssentialMetrics) (peers : List EssentialMetrics) :
    (target.current_price = none →
      get_stock_valuation_core ticker analysis_date target peers = none) ∧
    ∀ r, get_stock_valuation_core ticker analysis_date target peers = some r →
      target.current_price ≠ none := by
  refine ⟨core_none_of_no_current ticker analysis_date target peers, ?_⟩
  intro r hr hnone
  rw [core_none_of_no_current ticker analysis_date target peers hnone] at hr
  exact Option.noConfusion hr

/-- Witness for C10: a concrete target with no current price makes the
valuation core raise. -/
theorem C10_absent_current_price_raises_witness :
    no_price_target.current_price = none ∧
    get_stock_valuation_core "X" "2026-01-01" no_price_target [] = none :=
  ⟨rfl, (C10_absent_current_price_raises "X" "2026-01-01" no_price_target []).1 rfl⟩

/-- Lemma: reduction of the ROE term when both the target ROE and the peer
entry are present. -/
theorem roe_adjustment_term_eq (t : EssentialMetrics) (s : PeerStats) {r : ℚ}
    {e : StatEntry} (ht : t.roe = some r) (hs : s.roe = some e) :
    roe_adjustment_term t s =
      if (-(1/2) < r ∧ r < 1) ∧ 2 ≤ e.count then
        if 0 < e.std then
          some (max (-(3/20)) (min (3/20) ((r - e.median) / e.std * (1/20))))
        else none
      else none := by
  unfold roe_adjustment_term
  rw [ht, hs]

/-- Lemma: the ROE term never applies without a target ROE. -/
theorem roe_adjustment_term_none_roe (t : EssentialMetrics) (s : PeerStats)
    (ht : t.roe = none) : roe_adjustment_term t s = none := by
  unfold roe_adjustment_term
  rw [ht]

/-- Lemma: the ROE term never applies without a peer ROE entry. -/
theorem roe_adjustment_term_none_entry (t : EssentialMetrics) (s : PeerStats)
    (hs : s.roe = none) : roe_adjustment_term t s = none := by
  unfold roe_adjustment_term
  rw [hs]
  cases t.roe <;> rfl

/-- C5: for every target record and peer-statistics map, the quality
multiplier lies within [0.80, 1.20]; it is 1 when no term applies, 1 plus
the single term when exactly one applies (its own clamp makes the overall
±0.20 clamp a no-op), and 1 plus clamp(average of the two terms, −0.20,
0.20) when both apply. -/
theorem C5_quality_multiplier_structure (target : EssentialMetrics)
    (peer_stats : PeerStats) :
    (4/5 ≤ calculate_quality_adjustment target peer_stats ∧
      calculate_quality_adjustment target peer_stats ≤ 6/5) ∧
    (roe_adjustment_term target peer_stats = none →
      de_adjustment_term target peer_stats = none →
      calculate_quality_adjustment target peer_stats = 1) ∧
    (∀ a, roe_adjustment_term target peer_stats = some a →
      de_adjustment_term target peer_stats = none →
      calculate_quality_adjustment target peer_stats = 1 + a) ∧
    (∀ b, roe_adjustment_term target peer_stats = none →
      de_adjustment_term target peer_stats = some b →
      calculate_quality_adjustment target peer_stats = 1 + b) ∧
    (∀ a b, roe_adjustment_term target peer_stats = some a →
      de_adjustment_term target peer_stats = some b →
      calculate_quality_adjustment target peer_stats =
        1 + max (-(1/5)) (min (1/5) ((a + b) / 2))) := by
  rcases hr : roe_adjustment_term target peer_stats with _ | a <;>
    rcases hd : de_adjustment_term target peer_stats with _ | b
  · have hval : calculate_quality_adjustment target peer_stats = 1 := by
      simp [calculate_quality_adjustment, hr, hd]
    rw [hval]
    refine ⟨⟨by norm_num, by norm_num⟩, fun _ _ => rfl, ?_, ?_, ?_⟩
    · intro x hx; exact Option.noConfusion hx
    · intro x _ hx; exact Option.noConfusion hx
    · intro x y hx; exact Option.noConfusion hx
  · obtain ⟨hb1, hb2⟩ := de_adjustment_term_bounds hd
    have hval : calculate_quality_adjustment target peer_stats =
        1 + max (-(1/5)) (min (1/5) b) := by
      simp [calculate_quality_adjustment, hr, hd]
    have hmin : min (1/5 : ℚ) b = b := min_eq_right (by linarith)
    have hmax : max (-(1/5) : ℚ) b = b := max_eq_right (by linarith)
    rw [hval, hmin, hmax]
    refine ⟨⟨by linarith, by linarith⟩, ?_, ?_, ?_, ?_⟩
    · intro _ hx; exact Option.noConfusion hx
    · intro x hx; exact Option.noConfusion hx
    · intro x _ hx; exact congrArg (1 + ·) (Option.some.inj hx)
    · intro x y hx; exact Option.noConfusion hx
  · obtain ⟨ha1, ha2⟩ := roe_adjustment_term_bounds hr
    have hval : calculate_quality_adjustment target peer_stats =
        1 + max (-(1/5)) (min (1/5) a) := by
      simp [calculate_quality_adjustment, hr, hd]
    have hmin : min (1/5 : ℚ) a = a := min_eq_right (by linarith)
    have hmax : max (-(1/5) : ℚ) a = a := max_eq_right (by linarith)
    rw [hval, hmin, hmax]
    refine ⟨⟨by linarith, by linarith⟩, ?_, ?_, ?_, ?_⟩
    · intro hx; exact Option.noConfusion hx
    · intro x hx _; exact congrArg (1 + ·) (Option.some.inj hx)
    · intro x hx; exact Option.noConfusion hx
    · intro x y _ hy; exact Option.noConfusion hy
  · obtain ⟨ha1, ha2⟩ := roe_adjustment_term_bounds hr
    obtain ⟨hb1, hb2⟩ := de_adjustment_term_bounds hd
    have hval : calculate_quality_adjustment target peer_stats =
        1 + max (-(1/5)) (min (1/5) ((a + b) / 2)) := by
      simp [calculate_quality_adjustment, hr, hd]
    have hband := clamp_mem (c := (1/5 : ℚ)) (x := (a + b) / 2) (by norm_num)
    rw [hval]
    refine ⟨⟨by linarith [hband.1], by linarith [hband.2]⟩, ?_, ?_, ?_, ?_⟩
    · intro hx; exact Option.noConfusion hx
    · intro x _ hx; exact Option.noConfusion hx
    · intro x hx; exact Option.noConfusion hx
    · intro x y hx hy
      obtain rfl := Option.some.inj hx
      obtain rfl := Option.some.inj hy
      rfl

/-- Witness for C5 on a concrete target (ROE 0.1) and a concrete peer map
(median 0, std 1, count 2): only the ROE term applies and the multiplier is
1 + 0.005. -/
theorem C5_quality_multiplier_structure_witness :
    roe_adjustment_term mild_target boundary_stats = some (1/200) ∧
    de_adjustment_term mild_target boundary_stats = none ∧
    calculate_quality_adjustment mild_target boundary_stats = 1 + 1/200 :=
  ⟨by decide, rfl,
    (C5_quality_multiplier_structure mild_target boundary_stats).2.2.1 (1/200)
      (by decide) rfl⟩

/-- C9 (amended): the ROE term applies exactly when the target ROE is
present and strictly inside the open interval (−0.5, 1.0) — boundaries
excluded — and a peer ROE entry exists with count ≥ 2 and positive standard
deviation; when it applies it equals clamp((ROE − median)/std · 0.05,
−0.15, 0.15). -/
theorem C9_roe_term_characterisation (target : EssentialMetrics)
    (peer_stats : PeerStats) :
    ((roe_adjustment_term target peer_stats).isSome ↔
      ∃ r e, target.roe = some r ∧ peer_stats.roe = some e ∧
        -(1/2) < r ∧ r < 1 ∧ 2 ≤ e.count ∧ 0 < e.std) ∧
    ∀ r e, target.roe = some r → peer_stats.roe = some e →
      -(1/2) < r → r < 1 → 2 ≤ e.count → 0 < e.std →
      roe_adjustment_term target peer_stats =
        some (max (-(3/20)) (min (3/20) ((r - e.median) / e.std * (1/20)))) := by
  constructor
  · constructor
    · intro hsome
      rcases ht : target.roe with _ | r
      · rw [roe_adjustment_term_none_roe target peer_stats ht] at hsome
        exact absurd hsome (by simp)
      rcases hs : peer_stats.roe with _ | e
      · rw [roe_adjustment_term_none_entry target peer_stats hs] at hsome
        exact absurd hsome (by simp)
      rw [roe_adjustment_term_eq target peer_stats ht hs] at hsome
      by_cases h1 : ((-(1/2 : ℚ)) < r ∧ r < 1) ∧ 2 ≤ e.count
      · by_cases h2 : (0 : ℚ) < e.std
        · exact ⟨r, e, rfl, rfl, h1.1.1, h1.1.2, h1.2, h2⟩
        · rw [if_pos h1, if_neg h2] at hsome
          exact absurd hsome (by simp)
      · rw [if_neg h1] at hsome
        exact absurd hsome (by simp)
    · rintro ⟨r, e, ht, hs, hlo, hhi, hcount, hstd⟩
      rw [roe_adjustment_term_eq target peer_stats ht hs,
        if_pos ⟨⟨hlo, hhi⟩, hcount⟩, if_pos hstd]
      rfl
  · intro r e hr he hlo hhi hcount hstd
    rw [roe_adjustment_term_eq target peer_stats hr he,
      if_pos ⟨⟨hlo, hhi⟩, hcount⟩, if_pos hstd]

/-- Witness for C9 at the concrete target (ROE 0.1) and peer entry (median
0, std 1, count 2): the term applies and equals clamp(0.1·0.05). -/
theorem C9_roe_term_characterisation_witness :
    roe_adjustment_term mild_target boundary_stats =
      some (max (-(3/20)) (min (3/20)
        (((1/10 : ℚ) - (0 : ℚ)) / (1 : ℚ) * (1/20)))) :=
  (C9_roe_term_characterisation mild_target boundary_stats).2 (1/10)
    { median := 0, mean := 0, q25 := 0, q75 := 0, std := 1, count := 2, outliers_removed := 0 }
    rfl rfl (by norm_num) (by norm_num) (by norm_num) (by norm_num)

/-- Lemma: every entry the multiple-statistics block emits has count ≥ 2,
count equal to the number of surviving values, and outliers-removed equal to
the original count minus the surviving count. -/
theorem stats_for_multiple_spec (series : List ℚ) (cap : ℚ → Bool) (e : StatEntry)
    (h : stats_for_multiple series cap = some e) :
    2 ≤ e.count ∧ e.count = (surviving series cap).length ∧
    e.outliers_removed = series.length - e.count := by
  by_cases h1 : 2 < series.length
  · by_cases h3 : 2 ≤ ((remove_outliers series).filter cap).length
    · have h2 : 2 ≤ (remove_outliers series).length :=
        le_trans h3 (List.length_filter_le _ _)
      have hh : stats_for_multiple series cap =
          some (mkStatEntry ((remove_outliers series).filter cap)
            (series.length - ((remove_outliers series).filter cap).length)) := by
        simp only [stats_for_multiple]
        rw [if_pos h1, if_pos h2, if_pos h3]
      rw [hh] at h
      obtain rfl := (Option.some.inj h).symm
      refine ⟨h3, ?_, rfl⟩
      rw [surviving, if_pos h1]
      rfl
    · have hh : stats_for_multiple series cap = none := by
        simp only [stats_for_multiple]
        rw [if_pos h1]
        by_cases h2 : 2 ≤ (remove_outliers series).length
        · rw [if_pos h2, if_neg h3]
        · rw [if_neg h2]
      rw [hh] at h
      exact Option.noConfusion h
  · by_cases h4 : 2 ≤ series.length
    · have hh : stats_for_multiple series cap = some (mkStatEntry series 0) := by
        simp only [stats_for_multiple]
        rw [if_neg h1, if_pos h4]
      rw [hh] at h
      obtain rfl := (Option.some.inj h).symm
      refine ⟨h4, ?_, (Nat.sub_self _).symm⟩
      rw [surviving, if_neg h1]
      rfl
    · have hh : stats_for_multiple series cap = none := by
        simp only [stats_for_multiple]
        rw [if_neg h1, if_neg h4]
      rw [hh] at h
      exact Option.noConfusion h

/-- Lemma: the same count bookkeeping for the quality-statistics block. -/
theorem stats_for_quality_spec (series : List ℚ) (bound : ℚ → Bool) (e : StatEntry)
    (h : stats_for_quality series bound = some e) :
    2 ≤ e.count ∧ e.count = (surviving series bound).length ∧
    e.outliers_removed = series.length - e.count := by
  by_cases h1 : 2 < series.length
  · by_cases h2 : 2 ≤ ((remove_outliers series).filter bound).length
    · have hh : stats_for_quality series bound =
          some (mkStatEntry ((remove_outliers series).filter bound)
            (series.length - ((remove_outliers series).filter bound).length)) := by
        simp only [stats_for_quality]
        rw [if_pos h1, if_pos h2]
      rw [hh] at h
      obtain rfl := (Option.some.inj h).symm
      refine ⟨h2, ?_, rfl⟩
      rw [surviving, if_pos h1]
      rfl
    · have hh : stats_for_quality series bound = none := by
        simp only [stats_for_quality]
        rw [if_pos h1, if_neg h2]
      rw [hh] at h
      exact Option.noConfusion h
  · by_cases h4 : 2 ≤ series.length
    · have hh : stats_for_quality series bound = some (mkStatEntry series 0) := by
        simp only [stats_for_quality]
        rw [if_neg h1, if_pos h4]
      rw [hh] at h
      obtain rfl := (Option.some.inj h).symm
      refine ⟨h4, ?_, (Nat.sub_self _).symm⟩
      rw [surviving, if_neg h1]
      rfl
    · have hh : stats_for_quality series bound = none := by
        simp only [stats_for_quality]
        rw [if_neg h1, if_neg h4]
      rw [hh] at h
      exact Option.noConfusion h

/-- C4: for every peer-record list and every metric entry present in the
aggregator's output, count ≥ 2, the count equals the number of values
surviving the filtering stages (IQR plus the domain cap), and
outliers-removed equals the original non-absent value count minus the
surviving count; metrics with fewer than 2 surviving values are omitted. -/
theorem C4_stats_count_invariant (peers : List EssentialMetrics) :
    (∀ e, (calculate_peer_statistics peers).pe_ratio = some e →
      2 ≤ e.count ∧
      e.count = (surviving (dropna peers (·.pe_ratio)) (fun x => decide (x ≤ 100))).length ∧
      e.outliers_removed = (dropna peers (·.pe_ratio)).length - e.count) ∧
    (∀ e, (calculate_peer_statistics peers).pb_ratio = some e →
      2 ≤ e.count ∧
      e.count = (surviving (dropna peers (·.pb_ratio)) (fun x => decide (x ≤ 20))).length ∧
      e.outliers_removed = (dropna peers (·.pb_ratio)).length - e.count) ∧
    (∀ e, (calculate_peer_statistics peers).ps_ratio = some e →
      2 ≤ e.count ∧
      e.count = (surviving (dropna peers (·.ps_ratio)) (fun x => decide (x ≤ 30))).length ∧
      e.outliers_removed = (dropna peers (·.ps_ratio)).length - e.count) ∧
    (∀ e, (calculate_peer_statistics peers).roe = some e →
      2 ≤ e.count ∧
      e.count = (surviving (dropna peers (·.roe))
        (fun x => decide (-(1/2) ≤ x) && decide (x ≤ 1))).length ∧
      e.outliers_removed = (dropna peers (·.roe)).length - e.count) ∧
    (∀ e, (calculate_peer_statistics peers).debt_to_equity = some e →
      2 ≤ e.count ∧
      e.count = (surviving (dropna peers (·.debt_to_equity)) (fun x => decide (x ≤ 10))).length ∧
      e.outliers_removed = (dropna peers (·.debt_to_equity)).length - e.count) := by
  by_cases hp : peers.isEmpty
  · refine ⟨?_, ?_, ?_, ?_, ?_⟩ <;> intro e h <;>
      simp [calculate_peer_statistics, hp] at h
  · refine ⟨?_, ?_, ?_, ?_, ?_⟩ <;> intro e h <;>
      simp only [calculate_peer_statistics, hp, if_false, Bool.false_eq_true] at h
    · exact stats_for_multiple_spec _ _ e h
    · exact stats_for_multiple_spec _ _ e h
    · exact stats_for_multiple_spec _ _ e h
    · exact stats_for_quality_spec _ _ e h
    · exact stats_for_quality_spec _ _ e h

/-- Witness for C4 on the Scenario B peers: the emitted P/E entry has count
3 = number of surviving values and outliers-removed 0 = 3 − 3. -/
theorem C4_stats_count_invariant_witness :
    2 ≤ scenarioB_pe_entry.count ∧
    scenarioB_pe_entry.count =
      (surviving (dropna scenarioB_peers (·.pe_ratio)) (fun x => decide (x ≤ 100))).length ∧
    scenarioB_pe_entry.outliers_removed =
      (dropna scenarioB_peers (·.pe_ratio)).length - scenarioB_pe_entry.count :=
  (C4_stats_count_invariant scenarioB_peers).1 scenarioB_pe_entry
    (by decide)

/-- Lemma: with no current price the sanity check is the absolute clamp. -/
theorem apply_sanity_checks_none (vp : ℚ) :
    apply_sanity_checks vp none =
      if vp < 1/100 then 1/100 else if 10000 < vp then 10000 else vp := rfl

/-- Lemma: with a non-truthy or nonpositive current price the sanity check
is the absolute clamp. -/
theorem apply_sanity_checks_not_pos (vp cp : ℚ) (ht : ¬(cp ≠ 0 ∧ 0 < cp)) :
    apply_sanity_checks vp (some cp) =
      if vp < 1/100 then 1/100 else if 10000 < vp then 10000 else vp := by
  simp only [apply_sanity_checks]
  rw [if_neg ht]

/-- Lemma: with a truthy positive current price the two relative caps return
early and only otherwise does the value reach the absolute clamp. -/
theorem apply_sanity_checks_pos (vp cp : ℚ) (ht : cp ≠ 0 ∧ 0 < cp) :
    apply_sanity_checks vp (some cp) =
      if cp * 4 < vp then cp * 4
      else if vp < cp * (1/4) then cp * (1/4)
      else if vp < 1/100 then 1/100 else if 10000 < vp then 10000 else vp := by
  simp only [apply_sanity_checks]
  rw [if_pos ht]
  by_cases h1 : cp * 4 < vp
  · rw [if_pos h1, if_pos h1]
  · rw [if_neg h1, if_neg h1]
    by_cases h2 : vp < cp * (1/4)
    · rw [if_pos h2, if_pos h2]
    · rw [if_neg h2, if_neg h2]

/-- Lemma: the band the sanity-check stage actually enforces. Without a
truthy positive current price the result is inside [0.01, 10000]; with one,
it is inside [min(0.01, 0.25·current), max(10000, 4·current)] — the
relative caps return early and skip the absolute clamp. -/
theorem apply_sanity_checks_band (vp : ℚ) (cp : Option ℚ) :
    ((∀ c, cp = some c → ¬(c ≠ 0 ∧ 0 < c)) →
      1/100 ≤ apply_sanity_checks vp cp ∧ apply_sanity_checks vp cp ≤ 10000) ∧
    ∀ c, cp = some c → c ≠ 0 ∧ 0 < c →
      min (1/100) (c * (1/4)) ≤ apply_sanity_checks vp cp ∧
      apply_sanity_checks vp cp ≤ max 10000 (c * 4) := by
  cases cp with
  | none =>
    refine ⟨fun _ => ?_, fun c hc => Option.noConfusion hc⟩
    rw [apply_sanity_checks_none]
    split_ifs <;> constructor <;> linarith
  | some c0 =>
    by_cases ht : c0 ≠ 0 ∧ 0 < c0
    · have hpos := ht.2
      refine ⟨fun hno => absurd ht (hno c0 rfl), ?_⟩
      rintro c hc htr
      obtain rfl := Option.some.inj hc
      rw [apply_sanity_checks_pos vp c0 ht]
      split_ifs with h1 h2 h3 h4
      · exact ⟨le_trans (min_le_right _ _) (by linarith),
          le_max_right _ _⟩
      · exact ⟨min_le_right _ _, le_trans (by linarith) (le_max_right _ _)⟩
      · exact ⟨min_le_left _ _, le_trans (by norm_num) (le_max_left _ _)⟩
      · exact ⟨le_trans (min_le_left _ _) (by norm_num),
          le_max_left _ _⟩
      · exact ⟨le_trans (min_le_right _ _) (by linarith),
          le_trans (by linarith) (le_max_right _ _)⟩
    · refine ⟨fun _ => ?_, ?_⟩
      · rw [apply_sanity_checks_not_pos vp c0 ht]
        split_ifs <;> constructor <;> linarith
      · rintro c hc htr
        obtain rfl := Option.some.inj hc
        exact absurd htr ht

/-- Lemma: the stored price of an emitted component is the rounded image of
the sanity-checked adjusted price. -/
theorem method_component_value {per_share : Option ℚ} {entry : Option StatEntry}
    {lo hi q : ℚ} {cp : Option ℚ} {comp : ValuationComponent}
    (h : method_component per_share entry lo hi q cp = some comp) :
    ∃ a, comp.value_price = round2 (apply_sanity_checks a cp) := by
  simp only [method_component] at h
  split at h
  · rename_i v e
    split_ifs at h
    obtain rfl := (Option.some.inj h).symm
    exact ⟨v * e.median * q, rfl⟩
  · exact Option.noConfusion h

/-- Lemma: the band transported to an emitted component. -/
theorem method_component_band {per_share : Option ℚ} {entry : Option StatEntry}
    {lo hi q : ℚ} {cp : Option ℚ} {comp : ValuationComponent}
    (h : method_component per_share entry lo hi q cp = some comp) :
    ∃ p, comp.value_price = round2 p ∧
      ((∀ c, cp = some c → ¬(c ≠ 0 ∧ 0 < c)) → 1/100 ≤ p ∧ p ≤ 10000) ∧
      ∀ c, cp = some c → c ≠ 0 ∧ 0 < c →
        min (1/100) (c * (1/4)) ≤ p ∧ p ≤ max 10000 (c * 4) := by
  obtain ⟨a, ha⟩ := method_component_value h
  exact ⟨apply_sanity_checks a cp, ha, (apply_sanity_checks_band a cp).1,
    (apply_sanity_checks_band a cp).2⟩

/-- Lemma: a pair in the components map comes from one of the three method
slots. -/
theorem mem_toList_cases {c : ValuationComponents} {name : String}
    {comp : ValuationComponent} (h : (name, comp) ∈ c.toList) :
    c.pe_valuation = some comp ∨ c.pb_valuation = some comp ∨
      c.ps_valuation = some comp := by
  obtain ⟨pe, pb, ps⟩ := c
  cases pe <;> cases pb <;> cases ps <;>
    simp [ValuationComponents.toList] at h <;> simp_all <;> tauto

/-- C3 (amended): every emitted component's stored price is round2 of a
sanity-checked price p; without a truthy positive current price,
p ∈ [0.01, 10000]; with a positive current price c, p lies in the wider
band [min(0.01, 0.25·c), max(10000, 4·c)], because a firing relative cap
returns early and skips the absolute clamp (so p can reach 4·c > 10000 or
0.25·c < 0.01). -/
theorem C3_component_price_band (target : EssentialMetrics) (peer_stats : PeerStats)
    (name : String) (comp : ValuationComponent)
    (h : (name, comp) ∈ (calculate_value_price_components target peer_stats).toList) :
    ∃ p, comp.value_price = round2 p ∧
      ((∀ c, target.current_price = some c → ¬(c ≠ 0 ∧ 0 < c)) →
        1/100 ≤ p ∧ p ≤ 10000) ∧
      ∀ c, target.current_price = some c → c ≠ 0 ∧ 0 < c →
        min (1/100) (c * (1/4)) ≤ p ∧ p ≤ max 10000 (c * 4) := by
  rcases mem_toList_cases h with hc | hc | hc
  · exact method_component_band (hc :
      method_component target.earnings_per_share peer_stats.pe_ratio 5 100
        (calculate_quality_adjustment target peer_stats) target.current_price = some comp)
  · exact method_component_band (hc :
      method_component target.book_value_per_share peer_stats.pb_ratio (1/10) 20
        (calculate_quality_adjustment target peer_stats) target.current_price = some comp)
  · exact method_component_band (hc :
      method_component target.revenue_per_share peer_stats.ps_ratio (1/10) 30
        (calculate_quality_adjustment target peer_stats) target.current_price = some comp)

/-- C3 counterexample: a component can be emitted with a stored price of
20000, outside the claimed absolute band [0.01, 10000]: with current price
5000 and an adjusted price of 38000 the relative cap returns 4·5000 = 20000
and the absolute clamp never runs. -/
theorem C3_absolute_clamp_refuted :
    ((calculate_value_price_components big_target big_stats).pe_valuation.map
      (·.value_price)) = some 20000 ∧ ¬ ((20000 : ℚ) ≤ 10000) := by
  decide

/-- Witness for C3 on the Scenario B pipeline: the emitted P/E component
(price 25) is round2 of a sanity-checked price in the band for current
price 100. -/
theorem C3_component_price_band_witness :
    ∃ p, scenarioB_pe_component.value_price = round2 p ∧
      ((∀ c, scenarioB_target.current_price = some c → ¬(c ≠ 0 ∧ 0 < c)) →
        1/100 ≤ p ∧ p ≤ 10000) ∧
      ∀ c, scenarioB_target.current_price = some c → c ≠ 0 ∧ 0 < c →
        min (1/100) (c * (1/4)) ≤ p ∧ p ≤ max 10000 (c * 4) :=
  C3_component_price_band scenarioB_target
    (calculate_peer_statistics scenarioB_peers) "pe_valuation"
    scenarioB_pe_component (by decide)

/-- Lemma: sorting is permutation-invariant — two permutations of the same
values have the same sorted form. -/
theorem sortQ_perm_eq {l l' : List ℚ} (h : l.Perm l') : sortQ l = sortQ l' := by
  unfold sortQ
  exact List.eq_of_perm_of_sorted
    (((List.perm_insertionSort _ l).trans h).trans
      (List.perm_insertionSort _ l').symm)
    (List.sorted_insertionSort _ l) (List.sorted_insertionSort _ l')

/-- Lemma: quantiles are permutation-invariant. -/
theorem quantile_perm {l l' : List ℚ} (h : l.Perm l') (q : ℚ) :
    quantile l q = quantile l' q := by
  simp only [quantile]
  rw [sortQ_perm_eq h]

/-- Lemma: the mean is permutation-invariant. -/
theorem meanQ_perm {l l' : List ℚ} (h : l.Perm l') : meanQ l = meanQ l' := by
  unfold meanQ
  rw [h.sum_eq, h.length_eq]

/-- Lemma: the sample variance is permutation-invariant. -/
theorem sampleVar_perm {l l' : List ℚ} (h : l.Perm l') :
    sampleVar l = sampleVar l' := by
  unfold sampleVar
  rw [meanQ_perm h, (h.map (fun x => (x - meanQ l') ^ 2)).sum_eq, h.length_eq]

/-- Lemma: the IQR outlier filter maps permutations to permutations (its
bounds depend only on the quantiles, which are permutation-invariant). -/
theorem remove_outliers_perm {l l' : List ℚ} (h : l.Perm l') :
    (remove_outliers l).Perm (remove_outliers l') := by
  simp only [remove_outliers]
  rw [h.length_eq, quantile_perm h (1/4), quantile_perm h (3/4)]
  split_ifs
  · exact h
  · exact h.filter _

/-- Lemma: the emitted statistics fields are permutation-invariant. -/
theorem mkStatEntry_perm {v v' : List ℚ} (h : v.Perm v') (o : ℕ) :
    mkStatEntry v o = mkStatEntry v' o := by
  unfold mkStatEntry medianQ
  rw [quantile_perm h (1/2), meanQ_perm h, quantile_perm h (1/4),
    quantile_perm h (3/4), sampleVar_perm h, h.length_eq]

/-- Lemma: the multiple-statistics block is permutation-invariant. -/
theorem stats_for_multiple_perm {s s' : List ℚ} (h : s.Perm s') (cap : ℚ → Bool) :
    stats_for_multiple s cap = stats_for_multiple s' cap := by
  have hro := remove_outliers_perm h
  have hf := hro.filter cap
  simp only [stats_for_multiple]
  rw [h.length_eq, hro.length_eq, hf.length_eq]
  split_ifs <;> first
    | rfl
    | rw [mkStatEntry_perm hf]
    | rw [mkStatEntry_perm h]

/-- Lemma: the quality-statistics block is permutation-invariant. -/
theorem stats_for_quality_perm {s s' : List ℚ} (h : s.Perm s') (bound : ℚ → Bool) :
    stats_for_quality s bound = stats_for_quality s' bound := by
  have hro := remove_outliers_perm h
  have hf := hro.filter bound
  simp only [stats_for_quality]
  rw [h.length_eq, hf.length_eq]
  split_ifs <;> first
    | rfl
    | rw [mkStatEntry_perm hf]
    | rw [mkStatEntry_perm h]

/-- Lemma: column extraction with `dropna` maps permutations of the peer
list to permutations of the value series. -/
theorem dropna_perm {l l' : List EssentialMetrics} (h : l.Perm l')
    (f : EssentialMetrics → Option ℚ) : (dropna l f).Perm (dropna l' f) :=
  (h.map f).filterMap id

/-- C7: the peer-statistics aggregator is order-insensitive — permuting the
peer-record list leaves the entire statistics map unchanged (same entries
with the same median, mean, quartiles, std, count and outliers-removed). -/
theorem C7_stats_order_insensitive (l l' : List EssentialMetrics)
    (h : l.Perm l') :
    calculate_peer_statistics l = calculate_peer_statistics l' := by
  by_cases he : l.isEmpty
  · have he' : l'.isEmpty := by
      rw [List.isEmpty_iff_length_eq_zero, ← h.length_eq,
        ← List.isEmpty_iff_length_eq_zero]
      exact he
    simp only [calculate_peer_statistics, he, he', if_true]
  · have he' : ¬ l'.isEmpty := by
      rw [List.isEmpty_iff_length_eq_zero, ← h.length_eq,
        ← List.isEmpty_iff_length_eq_zero]
      exact he
    simp only [calculate_peer_statistics]
    rw [if_neg (by simpa using he), if_neg (by simpa using he')]
    rw [stats_for_multiple_perm (dropna_perm h (·.pe_ratio)) _,
      stats_for_multiple_perm (dropna_perm h (·.pb_ratio)) _,
      stats_for_multiple_perm (dropna_perm h (·.ps_ratio)) _,
      stats_for_quality_perm (dropna_perm h (·.roe)) _,
      stats_for_quality_perm (dropna_perm h (·.debt_to_equity)) _]

/-- Witness for C7: reversing the Scenario B peer list leaves the
statistics map unchanged. -/
theorem C7_stats_order_insensitive_witness :
    scenarioB_peers.Perm scenarioB_peers.reverse ∧
    calculate_peer_statistics scenarioB_peers =
      calculate_peer_statistics scenarioB_peers.reverse :=
  ⟨(List.reverse_perm scenarioB_peers).symm,
    C7_stats_order_insensitive _ _ (List.reverse_perm scenarioB_peers).symm⟩

end Invester
